import Mathlib

/-!
# Verification of the UMA safeSnap proposal reconciliation engine

Shallow embedding of `src/plugins/safeSnap/utils/umaModule.ts`
(`getBondDetails`, `getModuleDetailsUma`) and of the state-derivation
function `questionState` in
`src/plugins/safeSnap/components/HandleOutcome.vue`, together with
theorems settling the behavioural claims about them.

Chain state that the TypeScript code reads over JSON-RPC is modelled as an
explicit environment record `ChainEnv`; each read the code issues is logged
as a `ChainRead` so that claims about *which* reads happen (and in what
order) are statable.  JavaScript truthiness of the `proposalEvent` value
(`undefined` vs the empty object `{}` vs a populated record) is modelled
explicitly by `ProposalEventVal`.
-/

/-- One low-level call of a transaction batch
(`[to, operation, value, data]` tuples built by `getTransactions`). -/
structure Transaction where
  «to» : String
  operation : Nat
  value : Nat
  data : String
deriving DecidableEq, Repr

/-- An oracle `ProposePrice` event as returned by
`oracleContract.queryFilter(oracleContract.filters.ProposePrice(moduleAddress))`. -/
structure ProposePriceEvent where
  requester : String
  identifier : String
  timestamp : Nat
  ancillaryData : String
  expirationTimestamp : Nat
deriving DecidableEq, Repr

/-- The record returned by `oracleContract.getRequest`: disputer address,
settlement flag, resolved price (`none` models an undefined/absent price;
`some p` models a BigNumber, which is a truthy JS object even at zero)
and the request timestamp. -/
structure OracleRequestResult where
  disputer : String
  settled : Bool
  resolvedPrice : Option Int
  timestamp : Nat
deriving DecidableEq, Repr

/-- A module `TransactionsProposed` event; `explanation` holds the
UTF-8-decoded explanation bytes (the code compares
`toUtf8String(event.args.explanation)` with the caller's string). -/
structure TransactionsProposedEvent where
  explanation : String
  proposalTime : Nat
deriving DecidableEq, Repr

/-- A module `ProposalExecuted` event. -/
structure ProposalExecutedEvent where
  proposalHash : String
  proposalTime : Nat
deriving DecidableEq, Repr

/-- On-chain state visible to one reconciliation: the module configuration
returned by the multicall, the collateral token data read by
`getBondDetails`, the `proposalHashes` mapping, the event logs of both
contracts, the oracle's `getRequest` view and the current wall-clock time
(`Math.floor(Date.now() / 1000)`). -/
structure ChainEnv where
  avatar : String
  optimisticOracle : String
  rules : String
  bondAmount : Nat
  liveness : Nat
  collateral : String
  symbol : String
  decimals : Nat
  accountConnected : Bool
  allowance : Nat
  balance : Nat
  proposalHashes : String → Nat
  proposePriceEvents : List ProposePriceEvent
  getRequest : String → String → Nat → String → OracleRequestResult
  transactionsProposedEvents : List TransactionsProposedEvent
  proposalExecutedEvents : List ProposalExecutedEvent
  now : Nat

/-- One chain read issued by the engine, for reasoning about which RPC
reads a call performs and in what order.  The module-configuration
multicall and the bond reads of `getBondDetails` are each logged as a
single entry. -/
inductive ChainRead where
  | moduleConfigMulticall : ChainRead
  | bondDetailsRead : ChainRead
  | proposalHashesRead : String → ChainRead
  | oracleProposePriceQuery : ChainRead
  | oracleGetRequest : Nat → String → ChainRead
  | moduleTransactionsProposedQuery : ChainRead
  | moduleProposalExecutedQuery : String → ChainRead
deriving DecidableEq, Repr

/-- `true` exactly for the event-log queries (oracle `ProposePrice`,
module `TransactionsProposed`, module `ProposalExecuted`) and the
per-event `getRequest` reads. -/
def ChainRead.isEventQuery : ChainRead → Bool
  | .oracleProposePriceQuery => true
  | .oracleGetRequest _ _ => true
  | .moduleTransactionsProposedQuery => true
  | .moduleProposalExecutedQuery _ => true
  | _ => false

/-- The only failure the embedded engine models: the exception raised by
`defaultAbiCoder.encode` when a destination address of the batch is
malformed.  The source has no error type of its own; the exception
propagates out of `getModuleDetailsUma` uncaught. -/
inductive UmaError where
  | encodingError : UmaError
deriving DecidableEq, Repr

/-- Hex digit (0-9, a-f, A-F) by character code. -/
def isHexDigitChar (c : Char) : Bool :=
  (48 ≤ c.toNat && c.toNat ≤ 57) || (97 ≤ c.toNat && c.toNat ≤ 102) ||
    (65 ≤ c.toNat && c.toNat ≤ 70)

/-- Models the address well-formedness check of the external
`@ethersproject/abi` coder: `0x` prefix followed by 40 hex digits
(the library additionally checksums mixed-case addresses; that detail is
irrelevant to every claim, which only needs that malformed addresses make
the encode step throw). -/
def isValidAddress (a : String) : Bool :=
  match a.data with
  | '0' :: 'x' :: rest => rest.length == 40 && rest.all isHexDigitChar
  | _ => false

/-- Models `defaultAbiCoder.encode` on one
`(address to, uint8 operation, uint256 value, bytes data)` tuple:
validates the destination address and produces a deterministic byte
string; throws (returns `.error`) on a malformed address. -/
def encodeTransaction (t : Transaction) : Except UmaError String :=
  if isValidAddress t.«to» then
    .ok ("(" ++ t.«to» ++ "," ++ toString t.operation ++ ","
      ++ toString t.value ++ "," ++ t.data ++ ")")
  else
    .error .encodingError

/-- Sequential encoding of the tuple list; the first malformed address
makes the whole encode throw. -/
def encodeTransactionList : List Transaction → Except UmaError (List String)
  | [] => .ok []
  | t :: ts => do
    let s ← encodeTransaction t
    let rest ← encodeTransactionList ts
    return s :: rest

/-- Models `defaultAbiCoder.encode` on the tuple array
`['(address to, uint8 operation, uint256 value, bytes data)[]']`. -/
def encodeTransactions (ts : List Transaction) : Except UmaError String := do
  let parts ← encodeTransactionList ts
  return "[" ++ String.intercalate "," parts ++ "]"

/-- Lower-case hex digit for a value below 16. -/
def hexDigitChar (n : Nat) : Char :=
  if n < 10 then Char.ofNat (48 + n) else Char.ofNat (87 + n)

/-- Two-hex-digit encoding of one character (modelling a byte). -/
def hexOfChar (c : Char) : String :=
  String.mk [hexDigitChar (c.toNat / 16 % 16), hexDigitChar (c.toNat % 16)]

/-- Models the external `keccak256` digest as `0x` followed by a
deterministic all-hex body.  No claim depends on the digest's actual
value, only on the pipeline around it; the body contains no further
`0x` substring, so the source's `replace('0x', '')` (first occurrence)
agrees with replace-all on it. -/
def keccak256 (s : String) : String :=
  "0x" ++ String.join (s.data.map hexOfChar)

/-- Replace the first occurrence of `pat` in the character list with
`rep` (the semantics of the JS `String.prototype.replace` with a string
pattern, which the source applies as `replace('0x', '')`). -/
def replaceFirstAux (pat rep : List Char) : List Char → List Char
  | [] => []
  | c :: cs =>
    if pat.isPrefixOf (c :: cs) then rep ++ (c :: cs).drop pat.length
    else c :: replaceFirstAux pat rep cs

/-- JS `s.replace(pat, rep)` with a string pattern: first occurrence only. -/
def replaceFirst (s pat rep : String) : String :=
  String.mk (replaceFirstAux pat.data rep.data s.data)

/-- Models the `pack(['string','bytes','bytes'], ['', pack(['string','string'],
['proposalHash', ':']), toUtf8Bytes(proposalHash.replace('0x',''))])`
computation: solidity-pack of strings is byte concatenation. -/
def packAncillaryData (proposalHash : String) : String :=
  "" ++ ("proposalHash" ++ ":") ++ (replaceFirst proposalHash "0x" "")

/-- Round `n` to the nearest multiple of `ulp` (a power of two), ties to
even — the IEEE-754 round-to-nearest-even rule at significand step
`ulp`. -/
def roundAtUlp (n ulp : Nat) : Nat :=
  if 2 * (n % ulp) < ulp then n / ulp * ulp
  else if ulp < 2 * (n % ulp) then (n / ulp + 1) * ulp
  else if n / ulp % 2 == 0 then n / ulp * ulp
  else (n / ulp + 1) * ulp

/-- Smallest power-of-two ulp with `n < 2^53 * ulp`, found by doubling;
the fuel bounds the doubling and is ample for any uint256 quantity. -/
def float64UlpAux (n : Nat) : Nat → Nat → Nat
  | 0, ulp => ulp
  | fuel + 1, ulp =>
    if n < 2 ^ 53 * ulp then ulp else float64UlpAux n fuel (2 * ulp)

/-- Models the JS `Number()` coercion of a BigNumber's nonnegative
integer value: round to the nearest IEEE-754 double (53-bit
significand, ties to even).  Values below `2^53` are exact; above, one
ulp of precision is lost per doubling.  The double exponent range
vastly exceeds uint256, so overflow to infinity cannot arise for
on-chain quantities and is not modelled. -/
def jsNumber (n : Nat) : Nat :=
  roundAtUlp n (float64UlpAux n 1100 1)

/-- The bond record assembled by `getBondDetails`: when no account is
connected, allowance and balance are `BigNumber.from(0)`. -/
structure BondInfo where
  collateralAddress : String
  tokenSymbol : String
  tokenDecimals : Nat
  currentUserBondAllowance : Nat
  currentUserBalance : Nat
deriving DecidableEq, Repr

/-- Embedding of `getBondDetails` (umaModule.ts lines 13-48). -/
def getBondDetails (env : ChainEnv) : BondInfo :=
  { collateralAddress := env.collateral
    tokenSymbol := env.symbol
    tokenDecimals := env.decimals
    currentUserBondAllowance := if env.accountConnected then env.allowance else 0
    currentUserBalance := if env.accountConnected then env.balance else 0 }

/-- The object built for each matching oracle event
(umaModule.ts lines 186-194). -/
structure ProposalEventFull where
  expirationTimestamp : Nat
  isExpired : Bool
  isDisputed : Bool
  isSettled : Bool
  resolvedPrice : Option Int
  proposalHash : String
  proposalTime : Nat
deriving DecidableEq, Repr

/-- The zero-address sentinel the code compares the disputer against. -/
def zeroAddress : String := "0x0000000000000000000000000000000000000000"

/-- Embedding of the `getRequest(...).then(result => ...)` step
(umaModule.ts lines 167-196): fetch the full oracle request and derive
`isDisputed` (disputer differs from the zero address) and `isExpired`
(`Math.floor(Date.now()/1000) >= expirationTimestamp`). -/
def toFullEvent (env : ChainEnv) (proposalHash : String)
    (e : ProposePriceEvent) : ProposalEventFull :=
  let result := env.getRequest e.requester e.identifier e.timestamp e.ancillaryData
  { expirationTimestamp := e.expirationTimestamp
    isExpired := decide (e.expirationTimestamp ≤ env.now)
    isDisputed := !(result.disputer == zeroAddress)
    isSettled := result.settled
    resolvedPrice := result.resolvedPrice
    proposalHash := proposalHash
    proposalTime := result.timestamp }

/-- The JS value stored in the returned status's `proposalEvent` field:
`undefined` (falsy) when no oracle event matched
(`thisModuleFullProposalEvent[0]` on an empty array), the empty object
`{}` (truthy, every field read yields `undefined`) on the
no-transactions branch, or a populated event record. -/
inductive ProposalEventVal where
  | undef : ProposalEventVal
  | emptyObj : ProposalEventVal
  | evt : ProposalEventFull → ProposalEventVal
deriving DecidableEq, Repr, Inhabited

/-- JS truthiness test `!proposalEvent`: only `undefined` is falsy;
`{}` and event objects are truthy. -/
def ProposalEventVal.isFalsy : ProposalEventVal → Bool
  | .undef => true
  | _ => false

/-- Field read `proposalEvent.isExpired` under JS semantics
(`undefined` field on `{}` is falsy). -/
def ProposalEventVal.isExpiredRead : ProposalEventVal → Bool
  | .evt e => e.isExpired
  | _ => false

/-- Field read `proposalEvent.isSettled` under JS semantics. -/
def ProposalEventVal.isSettledRead : ProposalEventVal → Bool
  | .evt e => e.isSettled
  | _ => false

/-- Field read `proposalEvent.isDisputed` under JS semantics. -/
def ProposalEventVal.isDisputedRead : ProposalEventVal → Bool
  | .evt e => e.isDisputed
  | _ => false

/-- Truthiness of `!proposalEvent.resolvedPrice`: an absent/undefined
price is falsy; a BigNumber object is truthy even when it represents 0. -/
def ProposalEventVal.resolvedPriceFalsy : ProposalEventVal → Bool
  | .evt e => e.resolvedPrice.isNone
  | _ => true

/-- Loose equality `proposalEvent.resolvedPrice == 0`: a BigNumber
coerces through its decimal string, so it holds exactly for a present
zero price; `undefined == 0` is false. -/
def ProposalEventVal.resolvedPriceLooseEqZero : ProposalEventVal → Bool
  | .evt e => e.resolvedPrice == some 0
  | _ => false

/-- The status record returned by `getModuleDetailsUma`
(umaModule.ts lines 56-72). -/
structure ModuleDetails where
  dao : String
  oracle : String
  rules : String
  minimumBond : Nat
  expiration : Nat
  allowance : Nat
  collateral : String
  decimals : Nat
  symbol : String
  userBalance : Nat
  needsBondApproval : Bool
  noTransactions : Bool
  activeProposal : Bool
  proposalEvent : ProposalEventVal
  proposalExecuted : Bool
deriving DecidableEq, Repr, Inhabited

/-- The oracle `ProposePrice` correlation filter (umaModule.ts lines
158-162): keep the events whose ancillary data equals the computed
`AncillaryData` and whose timestamp's decimal string equals the
`proposalHashes[proposalHash]` timestamp's decimal string. -/
def matchingProposePriceEvents (events : List ProposePriceEvent)
    (ancillaryData : String) (proposalHashTimestamp : Nat) :
    List ProposePriceEvent :=
  events.filter fun e =>
    e.ancillaryData == ancillaryData &&
      toString e.timestamp == toString proposalHashTimestamp

/-- Embedding of `getModuleDetailsUma` (umaModule.ts lines 50-257).
Returns the result (or the propagated encode exception) together with
the ordered list of chain reads the call issued. -/
def getModuleDetailsUma (env : ChainEnv) (moduleAddress explanation : String)
    (transactions : Option (List Transaction)) :
    Except UmaError ModuleDetails × List ChainRead :=
  let log0 : List ChainRead := [.moduleConfigMulticall, .bondDetailsRead]
  let minimumBond := env.bondAmount
  let bondDetails := getBondDetails env
  let needsApproval :=
    decide (0 < jsNumber minimumBond) &&
      decide (jsNumber bondDetails.currentUserBondAllowance < jsNumber minimumBond)
  match transactions with
  | none =>
    (.ok { dao := env.avatar
           oracle := env.optimisticOracle
           rules := env.rules
           minimumBond := minimumBond
           expiration := env.liveness
           allowance := bondDetails.currentUserBondAllowance
           collateral := bondDetails.collateralAddress
           decimals := bondDetails.tokenDecimals
           symbol := bondDetails.tokenSymbol
           userBalance := bondDetails.currentUserBalance
           needsBondApproval := needsApproval
           noTransactions := true
           activeProposal := false
           proposalEvent := .emptyObj
           proposalExecuted := false },
     log0)
  | some txs =>
    match encodeTransactions txs with
    | .error e => (.error e, log0)
    | .ok encoded =>
      let proposalHash := keccak256 encoded
      let ancillaryData := packAncillaryData proposalHash
      let log1 := log0 ++ [.proposalHashesRead proposalHash]
      let proposalHashTimestamp := env.proposalHashes proposalHash
      let log2 := log1 ++ [.proposalHashesRead proposalHash]
      let activeProposal := decide (0 < proposalHashTimestamp)
      let proposalEvents :=
        env.proposePriceEvents.filter fun e => e.requester == moduleAddress
      let log3 := log2 ++ [.oracleProposePriceQuery]
      let thisModuleProposalEvent :=
        matchingProposePriceEvents proposalEvents ancillaryData proposalHashTimestamp
      let thisModuleFullProposalEvent :=
        thisModuleProposalEvent.map (toFullEvent env proposalHash)
      let log4 := log3 ++
        thisModuleProposalEvent.map fun e => .oracleGetRequest e.timestamp e.ancillaryData
      let log5 := log4 ++ [.moduleTransactionsProposedQuery]
      let thisProposalTransactionsProposedEvents :=
        env.transactionsProposedEvents.filter fun e => e.explanation == explanation
      let executionEvents :=
        env.proposalExecutedEvents.filter fun e => e.proposalHash == proposalHash
      let log6 := log5 ++ [.moduleProposalExecutedQuery proposalHash]
      let proposalTimes :=
        thisProposalTransactionsProposedEvents.map fun tx => toString tx.proposalTime
      let executionTimes :=
        executionEvents.map fun tx => toString tx.proposalTime
      let proposalExecuted := proposalTimes.any fun time => executionTimes.contains time
      (.ok { dao := env.avatar
             oracle := env.optimisticOracle
             rules := env.rules
             minimumBond := minimumBond
             expiration := env.liveness
             allowance := bondDetails.currentUserBondAllowance
             collateral := bondDetails.collateralAddress
             decimals := bondDetails.tokenDecimals
             symbol := bondDetails.tokenSymbol
             userBalance := bondDetails.currentUserBalance
             needsBondApproval := needsApproval
             noTransactions := false
             activeProposal := activeProposal
             proposalEvent :=
               match thisModuleFullProposalEvent with
               | [] => .undef
               | e :: _ => .evt e
             proposalExecuted := proposalExecuted },
       log6)

/-- The frozen state codes of `QuestionStates` (HandleOutcome.vue lines
37-48). -/
def QuestionStates.error : Int := -1

def QuestionStates.noWalletConnection : Int := 0

def QuestionStates.loading : Int := 1

def QuestionStates.waitingForProposal : Int := 2

def QuestionStates.proposalApproved : Int := 3

def QuestionStates.proposalRejected : Int := 4

def QuestionStates.completelyExecuted : Int := 5

def QuestionStates.disputedButNotResolved : Int := 6

def QuestionStates.disputedResolvedValid : Int := 7

/-- Embedding of the `questionState` computed property (HandleOutcome.vue
lines 228-268): `account` is the truthiness of `web3.value.account`,
`loadingFlag` of `loading.value`, and `questionDetails` is `none` when
`questionDetails.value` is undefined. -/
def questionState (account loadingFlag : Bool)
    (questionDetails : Option ModuleDetails) : Int :=
  if !account then QuestionStates.noWalletConnection
  else if loadingFlag then QuestionStates.loading
  else
    match questionDetails with
    | none => QuestionStates.error
    | some details =>
      if details.proposalEvent.isFalsy then QuestionStates.waitingForProposal
      else if details.proposalEvent.isExpiredRead && !details.proposalEvent.isSettledRead then
        QuestionStates.proposalApproved
      else if details.proposalEvent.isSettledRead && !details.proposalEvent.isDisputedRead then
        QuestionStates.proposalApproved
      else if details.proposalEvent.isSettledRead then QuestionStates.completelyExecuted
      else if details.proposalEvent.isDisputedRead && details.proposalEvent.resolvedPriceFalsy then
        QuestionStates.waitingForProposal
      else if details.proposalEvent.isDisputedRead && details.proposalEvent.resolvedPriceLooseEqZero then
        QuestionStates.proposalRejected
      else QuestionStates.error

/-! ## State-machine claims -/

/-- C10: for every input (status, walletConnected, loading) the derived
state is one of exactly seven values; the declared states
`disputedButNotResolved` and `disputedResolvedValid` are never returned
by `questionState`. -/
theorem questionState_range (account loadingFlag : Bool)
    (questionDetails : Option ModuleDetails) :
    questionState account loadingFlag questionDetails ∈
      [QuestionStates.error, QuestionStates.noWalletConnection,
        QuestionStates.loading, QuestionStates.waitingForProposal,
        QuestionStates.proposalApproved, QuestionStates.proposalRejected,
        QuestionStates.completelyExecuted] ∧
    questionState account loadingFlag questionDetails ≠
      QuestionStates.disputedButNotResolved ∧
    questionState account loadingFlag questionDetails ≠
      QuestionStates.disputedResolvedValid := by
  unfold questionState
  repeat' split
  all_goals decide

/-- A settled, undisputed, already-executed status: the scenario on which
the code and its own inline comments disagree. -/
def settledExecutedDetails : ModuleDetails :=
  { dao := "0xdao"
    oracle := "0xoracle"
    rules := "rules"
    minimumBond := 1
    expiration := 100
    allowance := 0
    collateral := "0xtoken"
    decimals := 18
    symbol := "TKN"
    userBalance := 0
    needsBondApproval := false
    noTransactions := false
    activeProposal := true
    proposalEvent := .evt
      { expirationTimestamp := 50
        isExpired := false
        isDisputed := false
        isSettled := true
        resolvedPrice := some 1
        proposalHash := "0xabc"
        proposalTime := 5 }
    proposalExecuted := true }

/-- C1: for a settled, undisputed proposal whose status has
`proposalExecuted = true`, `questionState` still returns
`proposalApproved`: the `settled && !disputed` branch never consults the
executed flag (the check exists only in the source's comments), so the
code does not distinguish Approved from Executed as the claim states. -/
theorem settled_executed_still_approved :
    settledExecutedDetails.proposalExecuted = true ∧
    settledExecutedDetails.proposalEvent.isSettledRead = true ∧
    settledExecutedDetails.proposalEvent.isDisputedRead = false ∧
    questionState true false (some settledExecutedDetails) =
      QuestionStates.proposalApproved ∧
    QuestionStates.proposalApproved ≠ QuestionStates.completelyExecuted := by
  decide

/-- C7: for a disputed proposal to which no higher-precedence branch
applies (not settled, not expired-and-unsettled), a resolved price of
zero yields `proposalRejected` and an undefined resolved price yields
`waitingForProposal`. -/
theorem disputed_state_dispatch (d : ModuleDetails) (pe : ProposalEventFull)
    (hpe : d.proposalEvent = .evt pe)
    (hdisp : pe.isDisputed = true)
    (hset : pe.isSettled = false)
    (hexp : ¬(pe.isExpired = true ∧ pe.isSettled = false)) :
    (pe.resolvedPrice = some 0 →
      questionState true false (some d) = QuestionStates.proposalRejected) ∧
    (pe.resolvedPrice = none →
      questionState true false (some d) = QuestionStates.waitingForProposal) := by
  have hexp2 : pe.isExpired = false := by
    cases hIE : pe.isExpired
    · rfl
    · exact absurd ⟨hIE, hset⟩ hexp
  constructor <;> intro hp <;>
    simp [questionState, hpe, ProposalEventVal.isFalsy,
      ProposalEventVal.isExpiredRead, ProposalEventVal.isSettledRead,
      ProposalEventVal.isDisputedRead, ProposalEventVal.resolvedPriceFalsy,
      ProposalEventVal.resolvedPriceLooseEqZero, hdisp, hset, hexp2, hp]

/-- A disputed, unsettled, unexpired proposal event resolved at price 0. -/
def disputedRejectedPe : ProposalEventFull :=
  { expirationTimestamp := 50
    isExpired := false
    isDisputed := true
    isSettled := false
    resolvedPrice := some 0
    proposalHash := "0xabc"
    proposalTime := 5 }

/-- Status carrying `disputedRejectedPe`. -/
def disputedRejectedDetails : ModuleDetails :=
  { settledExecutedDetails with
    proposalEvent := .evt disputedRejectedPe
    proposalExecuted := false }

/-- Witness for C7 at a concrete disputed status resolved at price 0. -/
theorem disputed_state_dispatch_witness :
    questionState true false (some disputedRejectedDetails) =
      QuestionStates.proposalRejected :=
  (disputed_state_dispatch disputedRejectedDetails disputedRejectedPe rfl rfl rfl
    (by decide)).1 rfl

/-! ## Reconciliation-engine claims -/

/-- A positive rounding step at a ulp not exceeding `n` keeps the
result positive. -/
theorem roundAtUlp_pos (n ulp : Nat) (hulp : 0 < ulp) (hle : ulp ≤ n) :
    0 < roundAtUlp n ulp := by
  have hq : 0 < n / ulp := Nat.div_pos hle hulp
  unfold roundAtUlp
  split
  · exact Nat.mul_pos hq hulp
  · split
    · exact Nat.mul_pos (Nat.succ_pos _) hulp
    · split
      · exact Nat.mul_pos hq hulp
      · exact Nat.mul_pos (Nat.succ_pos _) hulp

/-- The ulp search preserves positivity and never overshoots a positive
input. -/
theorem float64UlpAux_le_self (n : Nat) : ∀ (fuel ulp : Nat), 0 < ulp → ulp ≤ n →
    0 < float64UlpAux n fuel ulp ∧ float64UlpAux n fuel ulp ≤ n := by
  intro fuel
  induction fuel with
  | zero =>
    intro ulp h1 h2
    exact ⟨h1, h2⟩
  | succ f ih =>
    intro ulp h1 h2
    rw [float64UlpAux]
    split
    · exact ⟨h1, h2⟩
    · next hge =>
      apply ih
      · omega
      · have h53 : 2 ^ 53 * ulp ≤ n := Nat.le_of_not_lt hge
        have hstep : 2 * ulp ≤ 2 ^ 53 * ulp := by
          apply Nat.mul_le_mul_right
          norm_num
        omega

/-- `Number()` of a positive integer is positive. -/
theorem jsNumber_pos (n : Nat) (hn : 0 < n) : 0 < jsNumber n := by
  unfold jsNumber
  obtain ⟨h1, h2⟩ := float64UlpAux_le_self n 1100 1 (by omega) hn
  exact roundAtUlp_pos n _ h1 h2

/-- `Number()` vanishes exactly at zero. -/
theorem jsNumber_pos_iff (n : Nat) : 0 < jsNumber n ↔ 0 < n := by
  constructor
  · intro h
    rcases Nat.eq_zero_or_pos n with rfl | hp
    · rw [show jsNumber 0 = 0 from rfl] at h
      exact absurd h (lt_irrefl 0)
    · exact hp
  · exact jsNumber_pos n

/-- C6 (amended): `needsBondApproval` is true iff the minimum bond is
positive and its `Number()` image (float64 rounding) strictly exceeds
the allowance's `Number()` image — the code compares the coerced
doubles, not the exact integers; approving exactly `minimumBond` still
flips it to false on the next reconciliation, since equal amounts have
equal coercions. -/
theorem needsBondApproval_iff_rounded (env : ChainEnv)
    (moduleAddress explanation : String)
    (transactions : Option (List Transaction)) (r : ModuleDetails)
    (h : (getModuleDetailsUma env moduleAddress explanation transactions).fst = .ok r) :
    (r.needsBondApproval = true ↔
      0 < env.bondAmount ∧
        jsNumber (getBondDetails env).currentUserBondAllowance <
          jsNumber env.bondAmount) ∧
    ((getBondDetails env).currentUserBondAllowance = env.bondAmount →
      r.needsBondApproval = false) := by
  cases transactions with
  | none =>
    simp only [getModuleDetailsUma] at h
    rw [Except.ok.injEq] at h
    subst h
    constructor
    · simp [Bool.and_eq_true, decide_eq_true_iff, jsNumber_pos_iff]
    · intro hEq
      simp [hEq]
  | some txs =>
    cases henc : encodeTransactions txs with
    | error e =>
      simp only [getModuleDetailsUma, henc] at h
      cases h
    | ok encoded =>
      simp only [getModuleDetailsUma, henc] at h
      rw [Except.ok.injEq] at h
      subst h
      constructor
      · simp [Bool.and_eq_true, decide_eq_true_iff, jsNumber_pos_iff]
      · intro hEq
        simp [hEq]

/-- A minimal concrete chain environment shared by the concrete-input
theorems below. -/
def baseEnv : ChainEnv :=
  { avatar := "0xavatar"
    optimisticOracle := "0xoo"
    rules := "pass if vote passes"
    bondAmount := 0
    liveness := 100
    collateral := "0xtoken"
    symbol := "TKN"
    decimals := 18
    accountConnected := true
    allowance := 0
    balance := 0
    proposalHashes := fun _ => 0
    proposePriceEvents := []
    getRequest := fun _ _ _ _ =>
      { disputer := zeroAddress, settled := false, resolvedPrice := none, timestamp := 0 }
    transactionsProposedEvents := []
    proposalExecutedEvents := []
    now := 1000 }

/-- Environment with a positive minimum bond exceeding the allowance. -/
def bondEnv : ChainEnv :=
  { baseEnv with bondAmount := 5, allowance := 3 }

/-- The status returned for `bondEnv` with an undefined batch. -/
def bondEnvDetails : ModuleDetails :=
  ((getModuleDetailsUma bondEnv "0xmodule" "expl" none).fst.toOption).getD default

/-- Witness for the amended C6: with minimum bond 5 and allowance 3 the
returned status asks for bond approval. -/
theorem needsBondApproval_iff_rounded_witness :
    bondEnvDetails.needsBondApproval = true :=
  (needsBondApproval_iff_rounded bondEnv "0xmodule" "expl" none bondEnvDetails
    rfl).1.mpr ⟨by decide, by decide⟩

/-- Minimum bond of one 18-decimals token (`10^18` wei) with the
allowance one wei short of it. -/
def precisionEnv : ChainEnv :=
  { baseEnv with bondAmount := 10 ^ 18, allowance := 10 ^ 18 - 1 }

/-- C6 counterexample: with `minimumBond = 10^18` and
`allowance = 10^18 - 1` the exact comparison demands bond approval, but
`Number()` rounds both operands to the same double (`1e18`), so the
code reports `needsBondApproval = false` although the minimum bond is
positive and strictly exceeds the allowance. -/
theorem bond_precision_loss :
    0 < precisionEnv.bondAmount ∧
    (getBondDetails precisionEnv).currentUserBondAllowance <
      precisionEnv.bondAmount ∧
    jsNumber (10 ^ 18 - 1) = jsNumber (10 ^ 18) ∧
    ((getModuleDetailsUma precisionEnv "0xmodule" "expl" none).fst.map fun r =>
      r.needsBondApproval) = .ok false := by
  refine ⟨by decide, by decide, by decide, rfl⟩

/-- C5 (amended): for an *undefined* batch the engine issues only the
module-configuration multicall and the bond reads — no `proposalHashes`
read and no event query — and the returned status has
`noTransactions = true`, `activeProposal = false`,
`proposalExecuted = false`. -/
theorem undefined_batch_skips_queries (env : ChainEnv)
    (moduleAddress explanation : String) :
    (getModuleDetailsUma env moduleAddress explanation none).snd =
      [ChainRead.moduleConfigMulticall, ChainRead.bondDetailsRead] ∧
    ((getModuleDetailsUma env moduleAddress explanation none).fst.map fun r =>
        (r.noTransactions, r.activeProposal, r.proposalExecuted)) =
      .ok (true, false, false) := by
  constructor <;> rfl

/-- C5 counterexample: an *empty but defined* batch does not take the
no-transactions branch — the engine computes the proposal hash, reads
`proposalHashes` and issues the event queries, and the returned status
has `noTransactions = false`. -/
theorem empty_batch_still_queries :
    ((getModuleDetailsUma baseEnv "0xmodule" "expl" (some [])).snd.filter
        ChainRead.isEventQuery ≠ []) ∧
    ((getModuleDetailsUma baseEnv "0xmodule" "expl" (some [])).fst.map fun r =>
        r.noTransactions) = .ok false := by
  constructor
  · decide
  · rfl

/-- A malformed destination address anywhere in the batch makes the
sequential tuple encode throw. -/
theorem encodeTransactionList_error (txs : List Transaction)
    (h : ∃ t ∈ txs, isValidAddress t.«to» = false) :
    encodeTransactionList txs = .error .encodingError := by
  induction txs with
  | nil => simp at h
  | cons t ts ih =>
    rcases h with ⟨u, hu, hbad⟩
    rcases List.mem_cons.mp hu with rfl | hmem
    · simp [encodeTransactionList, encodeTransaction, hbad, Bind.bind, Except.bind]
    · cases hvt : isValidAddress t.«to» with
      | false =>
        simp [encodeTransactionList, encodeTransaction, hvt, Bind.bind, Except.bind]
      | true =>
        simp [encodeTransactionList, encodeTransaction, hvt, Bind.bind, Except.bind,
          ih ⟨u, hmem, hbad⟩]

/-- The whole batch encode throws when some destination is malformed. -/
theorem encodeTransactions_error (txs : List Transaction)
    (h : ∃ t ∈ txs, isValidAddress t.«to» = false) :
    encodeTransactions txs = .error .encodingError := by
  simp [encodeTransactions, encodeTransactionList_error txs h, Bind.bind, Except.bind]

/-- C8 (amended): a batch containing a malformed destination address makes
`getModuleDetailsUma` propagate the ABI coder's exception *after* the
module-configuration multicall and the bond reads, but before any
`proposalHashes` read or event query; there is no dedicated
MalformedBatch pre-flight check. -/
theorem malformed_batch_fails_after_config_reads (env : ChainEnv)
    (moduleAddress explanation : String) (txs : List Transaction)
    (h : ∃ t ∈ txs, isValidAddress t.«to» = false) :
    getModuleDetailsUma env moduleAddress explanation (some txs) =
      (.error .encodingError,
        [ChainRead.moduleConfigMulticall, ChainRead.bondDetailsRead]) := by
  simp [getModuleDetailsUma, encodeTransactions_error txs h]

/-- A transaction whose destination is not a well-formed address. -/
def badTx : Transaction :=
  { «to» := "snapshot", operation := 0, value := 0, data := "0x" }

/-- Witness for the amended C8 at a concrete malformed batch. -/
theorem malformed_batch_fails_witness :
    getModuleDetailsUma baseEnv "0xmodule" "expl" (some [badTx]) =
      (.error .encodingError,
        [ChainRead.moduleConfigMulticall, ChainRead.bondDetailsRead]) :=
  malformed_batch_fails_after_config_reads baseEnv "0xmodule" "expl" [badTx]
    ⟨badTx, by decide, by decide⟩

/-- C8 counterexample: for a malformed batch the engine still issues the
module-configuration multicall and the bond reads before failing, so the
failure does not happen "before any chain call". -/
theorem malformed_batch_reads_before_failure :
    (getModuleDetailsUma baseEnv "0xmodule" "expl" (some [badTx])).fst =
      .error .encodingError ∧
    (getModuleDetailsUma baseEnv "0xmodule" "expl" (some [badTx])).snd =
      [ChainRead.moduleConfigMulticall, ChainRead.bondDetailsRead] ∧
    (getModuleDetailsUma baseEnv "0xmodule" "expl" (some [badTx])).snd ≠ [] := by
  refine ⟨rfl, rfl, by decide⟩

/-- C4: an oracle `ProposePrice` event is in the correlated set iff it is
among the queried events and satisfies *both* conditions — ancillary-data
equality and timestamp equality (compared, as the code does, on decimal
strings, which coincides with numeric equality) — so an event satisfying
only one of the two conditions is excluded. -/
theorem matchingProposePriceEvents_mem_iff (events : List ProposePriceEvent)
    (ancillaryData : String) (proposalHashTimestamp : Nat)
    (e : ProposePriceEvent) :
    e ∈ matchingProposePriceEvents events ancillaryData proposalHashTimestamp ↔
      e ∈ events ∧ e.ancillaryData = ancillaryData ∧
        toString e.timestamp = toString proposalHashTimestamp := by
  simp [matchingProposePriceEvents, List.mem_filter, Bool.and_eq_true, and_assoc]

/-- C9: when the matching list holds two or more events, the returned
status's `proposalEvent` is the full oracle request record derived from
the first matching event in query order; the later matches are
discarded. -/
theorem first_matching_event_selected (env : ChainEnv)
    (moduleAddress explanation encoded : String) (txs : List Transaction)
    (e1 e2 : ProposePriceEvent) (rest : List ProposePriceEvent)
    (r : ModuleDetails)
    (henc : encodeTransactions txs = .ok encoded)
    (hmatch : matchingProposePriceEvents
        (env.proposePriceEvents.filter fun ev => ev.requester == moduleAddress)
        (packAncillaryData (keccak256 encoded))
        (env.proposalHashes (keccak256 encoded)) = e1 :: e2 :: rest)
    (h : (getModuleDetailsUma env moduleAddress explanation (some txs)).fst = .ok r) :
    r.proposalEvent = .evt (toFullEvent env (keccak256 encoded) e1) := by
  simp only [getModuleDetailsUma, henc, hmatch] at h
  rw [Except.ok.injEq] at h
  subst h
  simp

/-- C2 (amended behaviour of the code): when the batch is submitted
(`proposalHashes` non-zero) but the oracle event query yields no event
matching both correlation keys, the engine returns an ok status whose
`proposalEvent` is undefined, and the state machine maps that status to
`waitingForProposal` (AwaitingProposal); no indeterminate result exists
in the code. -/
theorem no_matching_event_maps_to_waiting (env : ChainEnv)
    (moduleAddress explanation encoded : String) (txs : List Transaction)
    (r : ModuleDetails)
    (henc : encodeTransactions txs = .ok encoded)
    (hsub : 0 < env.proposalHashes (keccak256 encoded))
    (hmatch : matchingProposePriceEvents
        (env.proposePriceEvents.filter fun ev => ev.requester == moduleAddress)
        (packAncillaryData (keccak256 encoded))
        (env.proposalHashes (keccak256 encoded)) = [])
    (h : (getModuleDetailsUma env moduleAddress explanation (some txs)).fst = .ok r) :
    r.activeProposal = true ∧ r.proposalEvent = .undef ∧
      questionState true false (some r) = QuestionStates.waitingForProposal := by
  simp only [getModuleDetailsUma, henc, hmatch] at h
  rw [Except.ok.injEq] at h
  subst h
  refine ⟨by simp [hsub], rfl, ?_⟩
  simp [questionState, ProposalEventVal.isFalsy]

/-- C3: `proposalExecuted` is exactly the non-emptiness of the
intersection of the proposal-time sets of the explanation-matched
`TransactionsProposed` events and the ProposalHash-filtered
`ProposalExecuted` events (proposal times compared, as the code does, as
decimal strings). -/
theorem proposalExecuted_iff_intersection (env : ChainEnv)
    (moduleAddress explanation encoded : String) (txs : List Transaction)
    (r : ModuleDetails)
    (henc : encodeTransactions txs = .ok encoded)
    (h : (getModuleDetailsUma env moduleAddress explanation (some txs)).fst = .ok r) :
    r.proposalExecuted = true ↔
      ∃ tp ∈ env.transactionsProposedEvents, tp.explanation = explanation ∧
        ∃ ex ∈ env.proposalExecutedEvents,
          ex.proposalHash = keccak256 encoded ∧
          toString ex.proposalTime = toString tp.proposalTime := by
  simp only [getModuleDetailsUma, henc] at h
  rw [Except.ok.injEq] at h
  subst h
  simp only [List.any_eq_true, List.mem_map, List.mem_filter, List.contains,
    List.elem_iff, beq_iff_eq]
  constructor
  · rintro ⟨t, ⟨tp, ⟨htpMem, htpExpl⟩, rfl⟩, hin⟩
    rcases hin with ⟨ex, ⟨hexMem, hexHash⟩, hexTime⟩
    exact ⟨tp, htpMem, htpExpl, ex, hexMem, hexHash, hexTime⟩
  · rintro ⟨tp, htpMem, htpExpl, ex, hexMem, hexHash, hexTime⟩
    exact ⟨toString tp.proposalTime, ⟨tp, ⟨htpMem, htpExpl⟩, rfl⟩,
      ⟨ex, ⟨hexMem, hexHash⟩, hexTime⟩⟩

/-- A transaction with a well-formed destination address. -/
def goodTx : Transaction :=
  { «to» := "0xaaaaaaaaaaaaaaaaaaaaaaaaaaaaaaaaaaaaaaaa"
    operation := 0
    value := 0
    data := "0x" }

/-- The ABI encoding of the one-transaction batch `[goodTx]`. -/
def goodEncoded : String :=
  ((encodeTransactions [goodTx]).toOption).getD ""

/-- The ancillary data correlated with `[goodTx]`'s proposal hash. -/
def goodAncillary : String :=
  packAncillaryData (keccak256 goodEncoded)

/-- First of two oracle events matching both correlation keys. -/
def ppEvent1 : ProposePriceEvent :=
  { requester := "0xmodule"
    identifier := "ZODIAC"
    timestamp := 7
    ancillaryData := goodAncillary
    expirationTimestamp := 500 }

/-- Second matching oracle event (a distinct record). -/
def ppEvent2 : ProposePriceEvent :=
  { ppEvent1 with expirationTimestamp := 600 }

/-- Environment in which `[goodTx]` was proposed at time 7 and two
oracle events match both correlation keys. -/
def twoEventsEnv : ChainEnv :=
  { baseEnv with
    proposalHashes := fun _ => 7
    proposePriceEvents := [ppEvent1, ppEvent2] }

/-- The status reconciled from `twoEventsEnv`. -/
def twoEventsDetails : ModuleDetails :=
  ((getModuleDetailsUma twoEventsEnv "0xmodule" "expl"
    (some [goodTx])).fst.toOption).getD default

/-- Witness for C9: with two matching events the first one in query
order supplies the returned proposal event. -/
theorem first_matching_event_selected_witness :
    twoEventsDetails.proposalEvent =
      .evt (toFullEvent twoEventsEnv (keccak256 goodEncoded) ppEvent1) :=
  first_matching_event_selected twoEventsEnv "0xmodule" "expl" goodEncoded
    [goodTx] ppEvent1 ppEvent2 [] twoEventsDetails rfl rfl rfl

/-- Environment in which `[goodTx]` was proposed at time 7 but the
oracle event query returns nothing. -/
def submittedNoEventEnv : ChainEnv :=
  { baseEnv with proposalHashes := fun _ => 7 }

/-- The status reconciled from `submittedNoEventEnv`. -/
def submittedNoEventDetails : ModuleDetails :=
  ((getModuleDetailsUma submittedNoEventEnv "0xmodule" "expl"
    (some [goodTx])).fst.toOption).getD default

/-- C2 counterexample: with the batch submitted on the module but no
matching oracle event, the engine succeeds with an undefined
`proposalEvent` and the state machine derives `waitingForProposal`
(AwaitingProposal) — not an indeterminate/error result. -/
theorem submitted_no_event_gives_waiting :
    ((getModuleDetailsUma submittedNoEventEnv "0xmodule" "expl"
        (some [goodTx])).fst.map fun r =>
      (r.activeProposal, r.proposalEvent, questionState true false (some r))) =
    .ok (true, ProposalEventVal.undef, QuestionStates.waitingForProposal) := by
  rfl

/-- Witness for the amended C2 at the same concrete environment. -/
theorem no_matching_event_maps_to_waiting_witness :
    questionState true false (some submittedNoEventDetails) =
      QuestionStates.waitingForProposal :=
  (no_matching_event_maps_to_waiting submittedNoEventEnv "0xmodule" "expl"
    goodEncoded [goodTx] submittedNoEventDetails rfl (by decide) rfl rfl).2.2

/-- Environment with a `TransactionsProposed` event (explanation "expl",
proposal time 9) and a `ProposalExecuted` event for `[goodTx]`'s hash at
the same proposal time. -/
def executedEnv : ChainEnv :=
  { baseEnv with
    transactionsProposedEvents := [{ explanation := "expl", proposalTime := 9 }]
    proposalExecutedEvents :=
      [{ proposalHash := keccak256 goodEncoded, proposalTime := 9 }] }

/-- The status reconciled from `executedEnv`. -/
def executedDetails : ModuleDetails :=
  ((getModuleDetailsUma executedEnv "0xmodule" "expl"
    (some [goodTx])).fst.toOption).getD default

/-- Witness for C3: shared proposal time 9 makes `proposalExecuted`
true. -/
theorem proposalExecuted_iff_intersection_witness :
    executedDetails.proposalExecuted = true :=
  (proposalExecuted_iff_intersection executedEnv "0xmodule" "expl" goodEncoded
    [goodTx] executedDetails rfl rfl).mpr
    ⟨{ explanation := "expl", proposalTime := 9 }, by decide, rfl,
      { proposalHash := keccak256 goodEncoded, proposalTime := 9 },
      by decide, rfl, rfl⟩
